import Mathlib

/-
  Verification of the catfs caching filesystem against its specification.

  This file contains a shallow embedding of the parts of the catfs sources
  that the claims under scrutiny are about:

  * src/catfs/flags.rs    - DiskSpace and its FromStr parser
  * src/evicter/mod.rs    - to_evict
  * src/catfs/inode.rs    - Inode::not_expired, Inode::flushed, Inode::flush_failed
  * src/catfs/rlibc.rs    - renameat (NFS probe logic)
  * src/evicter/dir_walker.rs - DirWalker::next_internal and Iterator::next
  * src/catfs/file.rs     - Handle::{read, write, flush, validate_cache},
                            src_str_to_checksum, set_pristine, notify_offset, copy
  * src/catfs/mod.rs      - CatFS::flush (inode flag updates)

  Modelling conventions:
  - machine integers are Nat / Int with explicit wrap-around (% 2^64 etc.)
    where the Rust code can overflow; `as` casts are modelled bit-faithfully;
  - Rust f64 values are modelled as exact rationals; binary64 rounding is not
    modelled (no claim exercises a non-representable value);
  - SHA-512 is injective for our purposes, so a checksum is modelled by the
    exact canonical serialization string that the code would hash;
  - fallible syscalls are modelled by explicit environment fields
    (writeErr, flushErr, ...) injecting an errno, or Except results;
  - the page-in background thread is not run concurrently: its published
    status (offset / eof / dirty / err) is part of the handle state, and an
    operation that would block on the condition variable is represented by a
    distinct `blocked` outcome (never a success and never an error).
-/

/-- Linux errno ENOENT. -/
def ENOENT : Nat := 2

/-- Linux errno EACCES. -/
def EACCES : Nat := 13

/-- Linux errno EINVAL. -/
def EINVAL : Nat := 22

/-- Linux errno ENOTSUP (EOPNOTSUPP). -/
def ENOTSUP : Nat := 95

/-- Linux errno ECANCELED. -/
def ECANCELED : Nat := 125

/-- src/catfs/flags.rs: `enum DiskSpace { Percent(f64), Bytes(u64) }`.
The f64 payload is modelled as an exact rational. -/
inductive DiskSpace where
  | Percent (p : ℚ)
  | Bytes (b : Nat)
deriving DecidableEq

/-- Value of a (already checked) decimal digit character. -/
def digitVal (c : Char) : Nat := c.toNat - 48

/-- Accumulate the value of a decimal digit string; none on a non-digit. -/
def digitsValAux (acc : Nat) : List Char → Option Nat
  | [] => some acc
  | c :: cs => if c.isDigit then digitsValAux (acc * 10 + digitVal c) cs else none

/-- Rust `u64::from_str`: optional leading plus sign, one or more decimal
digits, value below 2^64; anything else is a ParseIntError. -/
def parseU64 (cs : List Char) : Option Nat :=
  let body := match cs with
    | '+' :: rest => rest
    | other => other
  match body with
  | [] => none
  | _ =>
    match digitsValAux 0 body with
    | some n => if n < 2 ^ 64 then some n else none
    | none => none

/-- Value of the fractional-digit string of a decimal literal. -/
def fracVal : List Char → Option ℚ
  | [] => some 0
  | c :: cs =>
    if c.isDigit then (fracVal cs).map (fun q => ((digitVal c : ℚ) + q) / 10) else none

/-- Rust `f64::from_str` restricted to the sign / digits / optional fraction
grammar (exponents, inf and nan are not modelled: no claim exercises them);
the value is the exact decimal rational, binary64 rounding is not modelled. -/
def parseF64Core (cs : List Char) : Option ℚ :=
  let intPart := cs.takeWhile Char.isDigit
  let rest := cs.dropWhile Char.isDigit
  match rest with
  | [] =>
    match intPart with
    | [] => none
    | _ => (digitsValAux 0 intPart).map (fun n => (n : ℚ))
  | '.' :: frac =>
    if intPart.isEmpty && frac.isEmpty then none
    else
      match digitsValAux 0 intPart, fracVal frac with
      | some n, some f => if frac.all Char.isDigit then some ((n : ℚ) + f) else none
      | _, _ => none
  | _ => none

/-- Rust `f64::from_str` with the optional leading sign. -/
def parseF64 (cs : List Char) : Option ℚ :=
  match cs with
  | '-' :: rest => (parseF64Core rest).map (fun q => -q)
  | '+' :: rest => parseF64Core rest
  | _ => parseF64Core cs

/-- src/catfs/flags.rs, `impl FromStr for DiskSpace`.  The string is modelled
as its character list.  The outer Option models panic-freedom: `none` means
the Rust code panics (it calls `.unwrap()` on `s.chars().last()`), `some`
carries the `Result<DiskSpace, DiskSpaceParseError>`.  The multiplication by
the unit is the release-mode (wrapping) u64 multiplication. -/
def diskSpaceFromStr (cs : List Char) : Option (Except String DiskSpace) :=
  if cs.getLast? = some '%' then
    some (match parseF64 cs.dropLast with
      | some q => Except.ok (DiskSpace.Percent q)
      | none => Except.error "invalid float literal")
  else
    match cs.getLast? with
    | none => none
    | some c =>
      let unit : Option Nat :=
        if c = 'T' then some (1024 * 1024 * 1024 * 1024)
        else if c = 'G' then some (1024 * 1024 * 1024)
        else if c = 'M' then some (1024 * 1024)
        else if c = 'K' then some 1024
        else if c.isDigit then some 1
        else none
      match unit with
      | none => some (Except.error ("unrecognize unit in " ++ String.mk cs))
      | some u =>
        if 1 < u then
          some (match parseU64 cs.dropLast with
            | some n => Except.ok (DiskSpace.Bytes (n * u % 2 ^ 64))
            | none => Except.error "invalid digit found in string")
        else
          some (match parseU64 cs with
            | some n => Except.ok (DiskSpace.Bytes n)
            | none => Except.error "invalid digit found in string")

/-- True when DiskSpace::from_str returned (without panicking) a parse error. -/
def isParseError (r : Option (Except String DiskSpace)) : Bool :=
  match r with
  | some (Except.error _) => true
  | _ => false

/-- The fields of a statvfs snapshot that src/evicter/mod.rs::to_evict reads
(all u64-valued on the platforms catfs targets). -/
structure Statvfs where
  f_blocks : Nat
  f_bfree : Nat
  f_frsize : Nat
deriving DecidableEq

/-- Rust `u64 as i64`: reinterpret the low 64 bits as two's complement. -/
def toI64 (n : Nat) : Int :=
  if n % 2 ^ 64 < 2 ^ 63 then ((n % 2 ^ 64 : Nat) : Int)
  else ((n % 2 ^ 64 : Nat) : Int) - 2 ^ 64

/-- i64 arithmetic result wrapped to the i64 range (release-mode semantics;
no claim input makes debug- and release-mode behaviour differ here). -/
def wrapI64 (n : Int) : Int := (n + 2 ^ 63) % 2 ^ 64 - 2 ^ 63

/-- Rust `f64 as u64` on a finite double: saturating cast, truncating toward
zero (negative values truncate into the clamp at 0, values at or above 2^64
clamp to u64::MAX). -/
def satCastU64 (q : ℚ) : Nat :=
  if q < 0 then 0 else min (Int.toNat ⌊q⌋) (2 ^ 64 - 1)

/-- Floor of log2 over the naturals, fuel-structural (the fuel n always
suffices since the argument at least halves each step); 0 below 2. -/
def log2NatAux : Nat → Nat → Nat
  | 0, _ => 0
  | fuel + 1, n => if 2 ≤ n then log2NatAux fuel (n / 2) + 1 else 0

/-- Greatest k with 2^k ≤ n, for n ≥ 1. -/
def log2Nat (n : Nat) : Nat := log2NatAux n n

/-- Ceiling log2 over the naturals, fuel-structural as above. -/
def clog2NatAux : Nat → Nat → Nat
  | 0, _ => 0
  | fuel + 1, n => if 2 ≤ n then clog2NatAux fuel ((n + 1) / 2) + 1 else 0

/-- Least k with n ≤ 2^k, for n ≥ 1. -/
def clog2Nat (n : Nat) : Nat := clog2NatAux n n

/-- Round the rational n/d (d > 0) to the nearest integer, ties to the even
neighbour (the IEEE tie rule, applied to the value scaled onto the rounding
grid). -/
def rneIntPair (n : ℤ) (d : ℕ) : ℤ :=
  let f := Int.fdiv n d
  let r := n - f * d
  if 2 * r < (d : ℤ) then f
  else if (d : ℤ) < 2 * r then f + 1
  else if f % 2 = 0 then f else f + 1

/-- IEEE binary64 round-to-nearest-even of an exact rational value: `some r`
is the nearest representable finite double (as its exact rational value),
`none` is overflow to an infinity.  For magnitudes in [2^k, 2^(k+1)) the
grid step is 2^(k-52), floored at the subnormal step 2^(-1074); a rounded
magnitude of 2^1024 or more overflows.  NaN cannot arise from rational
inputs and is outside the model.  The computation works on the reduced
numerator/denominator pair of q (whose exact value is num/den): floor-log2
of |q| is floor-log2 of ⌊|q|⌋ when |q| ≥ 1 and minus ceiling-log2 of
⌈1/|q|⌉ otherwise, and q scaled by 2^-e is the pair (num, den * 2^e)
resp. (num * 2^-e, den). -/
def roundF64 (q : ℚ) : Option ℚ :=
  if q.num = 0 then some 0
  else
    let a := q.num.natAbs
    let d := q.den
    let l : ℤ := if d ≤ a then (log2Nat (a / d) : ℤ) else -(clog2Nat ((d + a - 1) / a) : ℤ)
    let e : ℤ := max (l - 52) (-1074)
    if 0 ≤ e then
      let m := rneIntPair q.num (d * 2 ^ Int.toNat e)
      if 2 ^ 1024 ≤ m.natAbs * 2 ^ Int.toNat e then none
      else some ((m * (2 ^ Int.toNat e : ℕ) : ℤ) : ℚ)
    else
      let m := rneIntPair (q.num * (2 ^ Int.toNat (-e) : ℕ)) d
      if 2 ^ (1024 + Int.toNat (-e)) ≤ m.natAbs then none
      else some (mkRat m (2 ^ Int.toNat (-e)))

/-- src/evicter/mod.rs::to_evict, translated cast for cast:
`desired` is the match result `as i64`; `x = desired - (f_bfree * f_frsize) as i64`;
the result is `if x > 0 { x as u64 } else { 0 }`.  The Percent branch is the
source expression `((st.f_blocks * st.f_frsize) as f64 * p / 100.0) as u64`
with every binary64 operation modelled by roundF64; an infinite intermediate
makes the final cast saturate, to u64::MAX when p is positive and to 0 when
p is negative (the first factor is a nonnegative integer, so the sign of an
overflowed product is the sign of p). -/
def toEvict (spec : DiskSpace) (st : Statvfs) : Nat :=
  let desired : Int := toI64 (match spec with
    | DiskSpace.Percent p =>
      match (roundF64 ((st.f_blocks * st.f_frsize % 2 ^ 64 : Nat) : ℚ)).bind
          (fun x => (roundF64 (x * p)).bind (fun y => roundF64 (y / 100))) with
      | some q => satCastU64 q
      | none => if p < 0 then 0 else 2 ^ 64 - 1
    | DiskSpace.Bytes b => b)
  let x : Int := wrapI64 (desired - toI64 (st.f_bfree * st.f_frsize % 2 ^ 64))
  if 0 < x then x.toNat else 0

/-- Desired free bytes exactly as the words of claim C8 put them:
`b` for Bytes(b) and `floor(f_blocks * f_frsize * p / 100)` for Percent(p). -/
def desiredFreeBytes (spec : DiskSpace) (st : Statvfs) : Int :=
  match spec with
  | DiskSpace.Percent p => ⌊((st.f_blocks * st.f_frsize : Nat) : ℚ) * p / 100⌋
  | DiskSpace.Bytes b => b

/-- Follows the words of claim C8 (for comparison with `toEvict`):
`max(0, desired_free_bytes - current_free_bytes)` in exact arithmetic. -/
def toEvictSpec (spec : DiskSpace) (st : Statvfs) : Nat :=
  (desiredFreeBytes spec st - (st.f_bfree * st.f_frsize : Nat)).toNat

/-- src/catfs/inode.rs::Inode::not_expired: the body is literally
`SystemTime::now() > self.time + *ttl`.  Wall-clock instants are modelled as
nanosecond counts passed explicitly (`nowv` is the moment of the call). -/
def notExpired (captureTime ttlv nowv : Nat) : Bool :=
  captureTime + ttlv < nowv

/-- Follows the words of claim C5 (for comparison with `notExpired`):
whether `now - capture_time < ttl` at the moment of the call. -/
def notExpiredSpec (captureTime ttlv nowv : Nat) : Bool :=
  nowv - captureTime < ttlv

/-- src/catfs/rlibc.rs::renameat.  `renameErr` is the outcome of the
underlying `libc::renameat` (`none` = succeeded, `some e` = failed, errno e).
`probe` is the outcome of the `existat(dir, path)` probe of the OLD path:
`Except.ok b` = fstatat answered (b = the old path exists), `Except.error e`
= fstatat failed with a non-ENOENT errno, which `existat` propagates.
When the probe answers `false`, the probing fstatat has just failed with
ENOENT, so the `io::Error::last_os_error()` the code then returns is ENOENT
(not the rename's errno). -/
def renameat (renameErr : Option Nat) (probe : Except Nat Bool) : Except Nat Unit :=
  match renameErr with
  | none => Except.ok ()
  | some _ =>
    match probe with
    | Except.error pe => Except.error pe
    | Except.ok true => Except.ok ()
    | Except.ok false => Except.error ENOENT

/-- One directory entry as readdir yields it (name and whether d_type is DT_DIR). -/
structure DirEnt where
  name : String
  isDir : Bool
deriving DecidableEq

deriving instance DecidableEq for Except

/-- The scripted behaviour of one directory for the walker: the sequence of
readdir outcomes (an `Except.error` entry is a failing readdir call) and an
optional closedir failure once the stream is exhausted. -/
structure DirScript where
  entries : List (Except Nat DirEnt)
  closeErr : Option Nat
deriving DecidableEq

/-- src/evicter/dir_walker.rs::DirWalker state: the remaining stream of the
currently open directory, its pending closedir outcome, its path, and the
stack of not-yet-visited subdirectory paths. -/
structure DirWalker where
  cur : List (Except Nat DirEnt)
  curCloseErr : Option Nat
  curPath : List String
  stack : List (List String)
deriving DecidableEq

/-- src/evicter/dir_walker.rs::DirWalker::next_internal.  `fs` maps a
directory path to the outcome of openat+fdopendir on it (`Except.error` =
the open fails).  The fuel argument only bounds the loop: real traversals of
finite trees terminate, and the claim theorems never rely on exhaustion
(exhaustion returns `ok none`). -/
def nextInternal (fs : List String → Except Nat DirScript) :
    Nat → DirWalker → Except Nat (Option (List String) × DirWalker)
  | 0, w => Except.ok (none, w)
  | fuel + 1, w =>
    match w.cur with
    | Except.error e :: _ => Except.error e
    | Except.ok ent :: rest =>
      if ent.isDir then
        if ent.name = "." ∨ ent.name = ".." then
          nextInternal fs fuel { w with cur := rest }
        else
          nextInternal fs fuel { w with cur := rest, stack := (w.curPath ++ [ent.name]) :: w.stack }
      else
        Except.ok (some (w.curPath ++ [ent.name]), { w with cur := rest })
    | [] =>
      match w.curCloseErr with
      | some e => Except.error e
      | none =>
        match w.stack with
        | [] => Except.ok (none, w)
        | next :: stk =>
          match fs next with
          | Except.error e => Except.error e
          | Except.ok script =>
            nextInternal fs fuel
              { cur := script.entries, curCloseErr := script.closeErr,
                curPath := next, stack := stk }

/-- src/evicter/dir_walker.rs, `impl Iterator for DirWalker`: `next` calls
`next_internal`, and on `Err(e)` it logs the error and returns `None`. -/
def walkerNext (fs : List String → Except Nat DirScript) (fuel : Nat) (w : DirWalker) :
    Option (List String × DirWalker) :=
  match nextInternal fs fuel w with
  | Except.ok (some p, w2) => some (p, w2)
  | Except.ok (none, _) => none
  | Except.error _ => none

/-- Hex rendering of one byte as Rust formats it: lowercase, no zero padding. -/
def hexByte (n : Nat) : String := String.mk (Nat.toDigits 16 n)

/-- src/catfs/file.rs::Handle::src_str_to_checksum: the canonical
serialization of the source file's identifying metadata.  The only selected
xattr is s3.etag; a missing attribute omits its line.  Handle::src_chksum is
the SHA-512 of this string; since SHA-512 is treated as injective, the model
uses the string itself as the checksum value. -/
def srcStrToChecksum (etag : Option (List Nat)) (mtime : Int) (size : Nat) : String :=
  (match etag with
   | some v => "s3.etag=0x" ++ String.join (v.map hexByte) ++ "\n"
   | none => "") ++ toString mtime ++ "\n" ++ toString size ++ "\n"

/-- The metadata of a source file as validate_cache reads it. -/
structure SrcFileState where
  etag : Option (List Nat)
  mtime : Int
  size : Nat
deriving DecidableEq

/-- The state of a cache file as validate_cache reads it: its
user.catfs.src_chksum xattr value, if set. -/
structure CacheFileState where
  chksumXattr : Option String
deriving DecidableEq

/-- The checksum recomputed from the source (Handle::src_chksum). -/
def srcChecksumOf (s : SrcFileState) : String :=
  srcStrToChecksum s.etag s.mtime s.size

/-- src/catfs/file.rs::Handle::is_pristine: the stored xattr is present and
equals the recomputed checksum. -/
def isPristine (s : SrcFileState) (c : CacheFileState) : Bool :=
  c.chksumXattr = some (srcChecksumOf s)

/-- src/catfs/file.rs::Handle::validate_cache.  The two Option arguments model
the openat outcomes (`none` = the file is absent, i.e. openat fails ENOENT;
other open/xattr/unlink errors, which the Rust code propagates as Err, are
not injected - the claim describes the non-error paths).  Returns the
validity verdict and the resulting cache-file state (`none` = deleted). -/
def validateCache (src : Option SrcFileState) (cache : Option CacheFileState)
    (cacheValidIfPresent checkOnly : Bool) : Bool × Option CacheFileState :=
  match src with
  | some s =>
    match cache with
    | some c =>
      if cacheValidIfPresent || isPristine s c then (true, some c)
      else if checkOnly then (false, some c)
      else (false, none)
    | none => (false, none)
  | none =>
    if checkOnly then (false, cache) else (false, none)

/-- Follows the words of claim C2 (for comparison with `validateCache`):
source missing - return false, deleting any cache copy unless check_only;
cache missing - return false; assume_valid_if_present - return true;
otherwise true iff stored xattr checksum = recomputed checksum, deleting the
cache on mismatch only when check_only is false. -/
def validateCacheSpec (src : Option SrcFileState) (cache : Option CacheFileState)
    (assumeValidIfPresent checkOnly : Bool) : Bool × Option CacheFileState :=
  match src with
  | none => (false, if checkOnly then cache else none)
  | some s =>
    match cache with
    | none => (false, none)
    | some c =>
      if assumeValidIfPresent then (true, some c)
      else if c.chksumXattr = some (srcChecksumOf s) then (true, some c)
      else if checkOnly then (false, some c)
      else (false, none)

/-- One file of the backing environment: its byte contents plus injected
errnos for pwrite (writeErr) and for File::flush / fsync (flushErr);
`none` means the syscall succeeds.  pread is modelled as always succeeding
(no claim concerns read-side IO errors). -/
structure FileData where
  data : List Nat
  writeErr : Option Nat
  flushErr : Option Nat
deriving DecidableEq

/-- src/catfs/file.rs::PageInInfo: the page-in status published by the
background copy under the handle's condition variable. -/
structure PageInInfo where
  offset : Nat
  dirty : Bool
  eof : Bool
  err : Option Nat
deriving DecidableEq

/-- src/catfs/file.rs::Handle.  srcEtag/srcMtime are the source metadata the
checksum protocol reads (the source size is src.data.length); cacheChksum is
the cache file's user.catfs.src_chksum xattr. -/
structure Handle where
  src : FileData
  srcEtag : Option (List Nat)
  srcMtime : Int
  cache : FileData
  cacheChksum : Option String
  dirty : Bool
  write_through_failed : Bool
  has_page_in_thread : Bool
  pageIn : PageInInfo
deriving DecidableEq

/-- The checksum of the handle's source file (Handle::src_chksum on the
handle's own src fd). -/
def Handle.srcChecksum (h : Handle) : String :=
  srcStrToChecksum h.srcEtag h.srcMtime h.src.data.length

/-- src/catfs/file.rs::Handle::set_pristine: write or remove the cache file's
checksum xattr (removal tolerates ENODATA, so it is total here). -/
def setPristine (h : Handle) (p : Bool) : Handle :=
  if p then { h with cacheChksum := some h.srcChecksum }
  else { h with cacheChksum := none }

/-- Effect of pwrite(buf, off) on file contents: bytes [off, off+len) are
replaced, the gap beyond the old end (a sparse hole) reads back as zeros. -/
def writeAtData (d : List Nat) (off : Nat) (b : List Nat) : List Nat :=
  d.take off ++ List.replicate (off - d.length) 0 ++ b ++ d.drop (off + b.length)

/-- Effect of pread(off, len): up to len bytes starting at off. -/
def readAtData (d : List Nat) (off len : Nat) : List Nat :=
  (d.drop off).take len

/-- Outcome of a handle operation: success with a value and the new handle
state, an errno with the handle state at the error, or `blocked` - the
operation is waiting on the page-in condition variable and, in this
sequential model of the status, never returns. -/
inductive HRes (α : Type) where
  | ok (val : α) (h : Handle)
  | err (e : Nat) (h : Handle)
  | blocked
deriving DecidableEq

/-- The value of a successful handle operation. -/
def HRes.value {α : Type} : HRes α → Option α
  | HRes.ok v _ => some v
  | _ => none

/-- The errno of a failed handle operation. -/
def HRes.errno {α : Type} : HRes α → Option Nat
  | HRes.err e _ => some e
  | _ => none

/-- The handle state after an operation that returned. -/
def HRes.handle {α : Type} : HRes α → Option Handle
  | HRes.ok _ h => some h
  | HRes.err _ h => some h
  | HRes.blocked => none

/-- src/catfs/file.rs::Handle::wait_for_offset: optionally mark the page-in
status dirty, then wait until eof (clearing has_page_in_thread), or until the
page-in offset reaches the target, or fail with a posted error. -/
def waitForOffset (h : Handle) (target : Nat) (setDirty : Bool) : HRes Unit :=
  let h1 := if setDirty then { h with pageIn := { h.pageIn with dirty := true } } else h
  if h1.pageIn.eof then HRes.ok () { h1 with has_page_in_thread := false }
  else if target ≤ h1.pageIn.offset then HRes.ok () h1
  else
    match h1.pageIn.err with
    | some e => HRes.err e h1
    | none => HRes.blocked

/-- src/catfs/file.rs::Handle::wait_for_eof: wait until the page-in status
reports eof (posted errors are not consulted, as in the source). -/
def waitForEof (h : Handle) : HRes Unit :=
  if h.pageIn.eof then HRes.ok () { h with has_page_in_thread := false }
  else HRes.blocked

/-- The read loop of src/catfs/file.rs::Handle::read: accumulate pread
chunks until the buffer is full or a read returns zero bytes.  Fuel only
bounds the loop; each iteration either returns or strictly grows acc, so
`nwant + 1` steps always suffice for the callers in this file. -/
def readLoop (h : Handle) (off nwant : Nat) : Nat → List Nat → HRes (List Nat)
  | 0, acc => HRes.ok acc h
  | fuel + 1, acc =>
    if acc.length < nwant then
      let chunk := readAtData h.cache.data (off + acc.length) (nwant - acc.length)
      if chunk.length = 0 then HRes.ok acc h
      else readLoop h off nwant fuel (acc ++ chunk)
    else HRes.ok acc h

/-- src/catfs/file.rs::Handle::read: wait for the page-in to cover
[0, off+nwant) if a page-in thread is running, then read from the cache. -/
def Handle.read (h : Handle) (off nwant : Nat) : HRes (List Nat) :=
  match (if h.has_page_in_thread then waitForOffset h (off + nwant) false else HRes.ok () h) with
  | HRes.ok _ h1 => readLoop h1 off nwant (nwant + 1) []
  | HRes.err e h1 => HRes.err e h1
  | HRes.blocked => HRes.blocked

/-- The write loop of src/catfs/file.rs::Handle::write.  Per chunk: write
through to the source unless write-through previously failed (ENOTSUP from
the source sets write_through_failed and returns the error; another source
errno returns it, marking the handle dirty if bytes were already written),
then write the chunk to the cache (an error breaks with the partial count if
anything was written, else returns the error).  A successful pwrite writes
the whole remaining chunk.  On leaving the loop the handle is dirty if any
byte was written.  Fuel only bounds the loop (each iteration returns or
strictly increases bw). -/
def writeLoop (off : Nat) (b : List Nat) : Handle → Nat → Nat → HRes Nat
  | h, bw, 0 => HRes.ok bw (if bw ≠ 0 then { h with dirty := true } else h)
  | h, bw, fuel + 1 =>
    if bw < b.length then
      match (if h.write_through_failed then none else h.src.writeErr) with
      | some e =>
        if e = ENOTSUP then HRes.err e { h with write_through_failed := true }
        else HRes.err e (if bw ≠ 0 then { h with dirty := true } else h)
      | none =>
        let h1 := if h.write_through_failed then h
          else { h with src := { h.src with
            data := writeAtData h.src.data (off + bw) (b.drop bw) } }
        match h1.cache.writeErr with
        | some e =>
          if 0 < bw then HRes.ok bw { h1 with dirty := true }
          else HRes.err e h1
        | none =>
          let h2 := { h1 with cache := { h1.cache with
            data := writeAtData h1.cache.data (off + bw) (b.drop bw) } }
          writeLoop off b h2 (bw + (b.length - bw)) fuel
    else HRes.ok bw (if bw ≠ 0 then { h with dirty := true } else h)

/-- src/catfs/file.rs::Handle::write: remove the pristine xattr before the
first dirty byte, wait (marking the page-in status dirty) for the page-in to
pass the write's end if a page-in thread runs, then run the write loop. -/
def Handle.write (h : Handle) (off : Nat) (b : List Nat) : HRes Nat :=
  let h0 := if !h.dirty then setPristine h false else h
  match (if h0.has_page_in_thread then waitForOffset h0 (off + b.length) true
         else HRes.ok () h0) with
  | HRes.ok _ h1 => writeLoop off b h1 0 (b.length + 1)
  | HRes.err e h1 => HRes.err e h1
  | HRes.blocked => HRes.blocked

/-- src/catfs/file.rs::Handle::notify_offset: called by the copy with each
new offset.  A non-eof update first checks for a posted error (cancellation)
and fails with it; then the status is updated, and a final (eof) update with
a clean dirty flag marks the cache pristine. -/
def notifyOffset (h : Handle) (res : Except Nat Nat) (eofv : Bool) : HRes Unit :=
  if !eofv && h.pageIn.err.isSome then HRes.err (h.pageIn.err.getD 0) h
  else
    let h1 := match res with
      | Except.ok off => { h with pageIn := { h.pageIn with offset := off, eof := eofv } }
      | Except.error e => { h with pageIn := { h.pageIn with err := some e, eof := eofv } }
    if eofv && !h1.pageIn.dirty then HRes.ok () (setPristine h1 true)
    else HRes.ok () h1

/-- src/catfs/file.rs::Handle::copy with to_cache = false (the flush path):
shrink the source to the cache's size if it was larger, then copy the cache's
bytes to the source from offset zero, reporting progress through
notify_offset and finishing with an eof update.  The 128 KiB splice / 32 KiB
user-space chunking does not change the resulting bytes or which errno (the
source pwrite's, or a posted cancellation) surfaces first, so the copy is
modelled as one chunk. -/
def Handle.copyToSrc (h : Handle) : HRes Unit :=
  let size := h.cache.data.length
  let h1 := if size < h.src.data.length
    then { h with src := { h.src with data := h.src.data.take size } } else h
  if size = 0 then notifyOffset h1 (Except.ok 0) true
  else
    match h1.src.writeErr with
    | some e => HRes.err e h1
    | none =>
      let h2 := { h1 with src := { h1.src with data := writeAtData h1.src.data 0 h1.cache.data } }
      match notifyOffset h2 (Except.ok size) false with
      | HRes.ok _ h3 => notifyOffset h3 (Except.ok size) true
      | other => other

/-- src/catfs/file.rs::Handle::flush.  Dirty handle: either copy the cache
back to the source (write-through previously failed; wait for page-in eof
first) or mark the cache pristine; then flush the cache file, then the
source file - a source flush failure drops the pristine marker and surfaces
the error (the fd invalidation has no further model-visible effect).  Clean
handle: post ECANCELED to a running page-in and report success.  The Bool
result is flushed_to_src. -/
def Handle.flush (h : Handle) : HRes Bool :=
  if h.dirty then
    match (if h.write_through_failed then
             match (if h.has_page_in_thread then waitForEof h else HRes.ok () h) with
             | HRes.ok _ h1 => h1.copyToSrc
             | HRes.err e h1 => HRes.err e h1
             | HRes.blocked => HRes.blocked
           else HRes.ok () (setPristine h true)) with
    | HRes.ok _ hA =>
      match hA.cache.flushErr with
      | some e => HRes.err e hA
      | none =>
        match hA.src.flushErr with
        | some e => HRes.err e (setPristine hA false)
        | none => HRes.ok true { hA with dirty := false }
    | HRes.err e h1 => HRes.err e h1
    | HRes.blocked => HRes.blocked
  else
    if h.has_page_in_thread then
      HRes.ok false { h with pageIn := { h.pageIn with err := some ECANCELED } }
    else HRes.ok false h

/-- src/catfs/inode.rs: the two inode flags claims C3 reads and writes. -/
structure InodeFlags where
  cache_valid_if_present : Bool
  flush_failed : Bool
deriving DecidableEq

/-- src/catfs/inode.rs::Inode::flushed. -/
def inodeFlushed (_f : InodeFlags) : InodeFlags :=
  { cache_valid_if_present := false, flush_failed := false }

/-- src/catfs/inode.rs::Inode::flush_failed (the setter). -/
def inodeFlushFailed (_f : InodeFlags) : InodeFlags :=
  { cache_valid_if_present := false, flush_failed := true }

/-- src/catfs/mod.rs::CatFS::flush, restricted to its effect on the inode
flags: Handle::flush failing calls Inode::flush_failed, succeeding calls
Inode::flushed (on both the flushed-to-src and the local-only branch; the
subsequent attribute refresh does not touch the flags).  The Bool is whether
the flush succeeded.  `none` - the flush blocked on the page-in thread and
the operation has not completed. -/
def catfsFlush (f : InodeFlags) (h : Handle) : Option (Bool × InodeFlags × Handle) :=
  match h.flush with
  | HRes.ok _ h1 => some (true, inodeFlushed f, h1)
  | HRes.err _ h1 => some (false, inodeFlushFailed f, h1)
  | HRes.blocked => none

/-- A quiescent read-write handle: empty files, no injected errors, clean,
write-through intact, no page-in thread. -/
def cleanHandle : Handle :=
  ⟨⟨[], none, none⟩, none, 0, ⟨[], none, none⟩, none, false, false, false, ⟨0, false, false, none⟩⟩

/-- A handle in the write-through-failed scenario of claim C4 just before
flush: dirty, write_through_failed set, two bytes in the cache, no page-in
thread ever ran (so the page-in status dirty flag is still false), and the
pristine xattr was removed when the handle became dirty. -/
def wtfDirtyHandle : Handle :=
  ⟨⟨[], none, none⟩, none, 0, ⟨[1, 2], none, none⟩, none, true, true, false, ⟨0, false, false, none⟩⟩

/-- A clean handle whose source rejects writes with ENOTSUP (claim C4,
first write). -/
def enotsupHandle : Handle :=
  ⟨⟨[], some ENOTSUP, none⟩, none, 0, ⟨[], none, none⟩, none, false, false, false,
    ⟨0, false, false, none⟩⟩

/-- A handle whose write-through already failed (claim C4, subsequent
writes); the source still rejects writes, which must no longer matter. -/
def skipSrcHandle : Handle :=
  ⟨⟨[9], some ENOTSUP, none⟩, none, 0, ⟨[], none, none⟩, none, false, true, false,
    ⟨0, false, false, none⟩⟩

/-- Helper: the gap-filled prefix that pwrite leaves before the written
region has exactly the write offset as its length. -/
theorem writeAt_gap_length (d : List Nat) (off : Nat) :
    (d.take off ++ List.replicate (off - d.length) 0).length = off := by
  simp only [List.length_append, List.length_take, List.length_replicate]
  omega

/-- Helper: reading back len(b) bytes at the write offset returns b. -/
theorem writeAtData_readback (d : List Nat) (off : Nat) (b : List Nat) :
    ((writeAtData d off b).drop off).take b.length = b := by
  unfold writeAtData
  rw [show d.take off ++ List.replicate (off - d.length) 0 ++ b ++ d.drop (off + b.length)
      = (d.take off ++ List.replicate (off - d.length) 0) ++ (b ++ d.drop (off + b.length)) by
        simp [List.append_assoc]]
  rw [List.drop_left' (writeAt_gap_length d off), List.take_left' rfl]

/-- C9: DiskSpace::from_str parses "25G" to Bytes(25 * 1024^3) and "25%" to
Percent(25.0), and rejects "-25", "25W" and "CAT" with a parse error. -/
theorem diskSpaceFromStr_examples :
    diskSpaceFromStr "25G".toList = some (Except.ok (DiskSpace.Bytes 26843545600)) ∧
    diskSpaceFromStr "25%".toList = some (Except.ok (DiskSpace.Percent 25)) ∧
    isParseError (diskSpaceFromStr "-25".toList) = true ∧
    isParseError (diskSpaceFromStr "25W".toList) = true ∧
    isParseError (diskSpaceFromStr "CAT".toList) = true := by decide

/-- C10: DiskSpace::from_str panics on the empty string (it unwraps the last
character of an empty character stream), and on every non-empty input it
returns a value or a parse error without panicking. -/
theorem diskSpaceFromStr_empty_panics (cs : List Char) (hne : cs ≠ []) :
    (diskSpaceFromStr cs).isSome = true ∧ diskSpaceFromStr [] = none := by
  refine ⟨?_, rfl⟩
  unfold diskSpaceFromStr
  split
  · simp
  · cases hl : cs.getLast? with
    | none => exact absurd (List.getLast?_eq_none_iff.mp hl) hne
    | some c =>
      dsimp only
      split
      · simp
      · split <;> simp

/-- C10 witness: the theorem applied to the one-character input "7". -/
theorem diskSpaceFromStr_empty_panics_witness :
    (['7'] : List Char) ≠ [] ∧
    ((diskSpaceFromStr ['7']).isSome = true ∧ diskSpaceFromStr [] = none) :=
  ⟨by decide, diskSpaceFromStr_empty_panics ['7'] (by decide)⟩

/-- C5: the code of Inode::not_expired evaluates `now > capture_time + ttl`,
which is the negation (up to the boundary) of the specified
`now - capture_time < ttl`: 50 units after capture with ttl 100 it answers
false (spec: true), and 150 units after capture it answers true (spec:
false). -/
theorem notExpired_contradicts_spec :
    notExpired 0 100 50 = false ∧ notExpiredSpec 0 100 50 = true ∧
    notExpired 0 100 150 = true ∧ notExpiredSpec 0 100 150 = false := by decide

/-- C6: when the rename syscall fails (here with EACCES) and the old path
still exists, renameat declares success instead of returning the rename
error; when the old path no longer exists it returns the probe's ENOENT
instead of declaring success.  Both outcomes are the reverse of the claim. -/
theorem renameat_contradicts_spec :
    renameat (some EACCES) (Except.ok true) = Except.ok () ∧
    renameat (some EACCES) (Except.ok false) = Except.error ENOENT := by decide

/-- C7 counterexample: a readdir failure (EACCES) makes next_internal return
the error, but Iterator::next maps it to None, indistinguishable from an
exhausted iteration - the error is not returned to the iterator's caller. -/
theorem dirWalker_next_swallows_error :
    nextInternal (fun _ => Except.error ENOENT) 1 ⟨[Except.error EACCES], none, [], []⟩
      = Except.error EACCES ∧
    walkerNext (fun _ => Except.error ENOENT) 1 ⟨[Except.error EACCES], none, [], []⟩
      = none := by decide

/-- C7 (amended): every failing syscall of the traversal (a failing readdir,
a failing closedir of the exhausted stream, a failing openat/fdopendir of
the next stacked directory) terminates next_internal with that error, and
the Iterator::next wrapper then ends the iteration returning None instead of
returning the error to its caller. -/
theorem dirWalker_error_propagation (fs : List String → Except Nat DirScript) (fuel : Nat) :
    (∀ w e rest, w.cur = Except.error e :: rest →
       nextInternal fs (fuel + 1) w = Except.error e) ∧
    (∀ w e, w.cur = [] → w.curCloseErr = some e →
       nextInternal fs (fuel + 1) w = Except.error e) ∧
    (∀ w e p stk, w.cur = [] → w.curCloseErr = none → w.stack = p :: stk →
       fs p = Except.error e → nextInternal fs (fuel + 1) w = Except.error e) ∧
    (∀ fl w e, nextInternal fs fl w = Except.error e → walkerNext fs fl w = none) := by
  refine ⟨?_, ?_, ?_, ?_⟩
  · intro w e rest hcur
    unfold nextInternal
    rw [hcur]
  · intro w e hcur hclose
    unfold nextInternal
    rw [hcur, hclose]
  · intro w e p stk hcur hclose hstk hfs
    unfold nextInternal
    rw [hcur, hclose, hstk]
    dsimp only
    rw [hfs]
  · intro fl w e hni
    unfold walkerNext
    rw [hni]

/-- C7 witness: the three error propagations and the swallowing, each at a
concrete walker state. -/
theorem dirWalker_error_propagation_witness :
    nextInternal (fun _ => Except.error 7) 1 ⟨[Except.error 13], none, [], []⟩
      = Except.error 13 ∧
    nextInternal (fun _ => Except.error 7) 1 ⟨[], some 5, [], []⟩ = Except.error 5 ∧
    nextInternal (fun _ => Except.error 7) 1 ⟨[], none, [], [["d"]]⟩ = Except.error 7 ∧
    walkerNext (fun _ => Except.error 7) 1 ⟨[], some 5, [], []⟩ = none := by
  have h := dirWalker_error_propagation (fun _ => Except.error 7) 0
  refine ⟨h.1 _ 13 [] rfl, h.2.1 _ 5 rfl rfl, h.2.2.1 _ 7 ["d"] [] rfl rfl rfl rfl, ?_⟩
  exact h.2.2.2 1 _ 5 (h.2.1 ⟨[], some 5, [], []⟩ 5 rfl rfl)

set_option maxRecDepth 4000 in
/-- C8 counterexample: two divergences from the claimed formula
max(0, desired - current).  (i) With 2^63 + 5 free bytes (f_bfree = 2^63 + 5,
f_frsize = 1) and a Bytes(2) target, the `u64 as i64` cast makes the free
space negative, so to_evict answers 2^63 - 3 where the formula gives 0.
(ii) With 2^60 + 1 total bytes (f_blocks = 2^60 + 1, f_frsize = 1), 2^60
free and a Percent(100) target, the `u64 as f64` conversion rounds
2^60 + 1 down to 2^60 (doubles near 2^60 are 256 apart), so to_evict
answers 0 where the formula floor((2^60 + 1) * 100 / 100) - 2^60 gives 1. -/
theorem toEvict_formula_counterexamples :
    (toEvict (DiskSpace.Bytes 2) ⟨0, 2 ^ 63 + 5, 1⟩ = 2 ^ 63 - 3 ∧
     toEvictSpec (DiskSpace.Bytes 2) ⟨0, 2 ^ 63 + 5, 1⟩ = 0) ∧
    (toEvict (DiskSpace.Percent 100) ⟨2 ^ 60 + 1, 2 ^ 60, 1⟩ = 0 ∧
     toEvictSpec (DiskSpace.Percent 100) ⟨2 ^ 60 + 1, 2 ^ 60, 1⟩ = 1) := by
  refine ⟨⟨by decide, by decide⟩, ?_, ?_⟩
  · have h2 : ((2 ^ 60 : Nat) : ℚ) * (100 : ℚ) = ((100 * 2 ^ 60 : Nat) : ℚ) := by
      push_cast; ring
    have h4 : ((100 * 2 ^ 60 : Nat) : ℚ) / (100 : ℚ) = ((2 ^ 60 : Nat) : ℚ) := by
      push_cast; norm_num
    simp only [toEvict]
    rw [show ((2 ^ 60 + 1) * 1 % 2 ^ 64 : Nat) = (2 ^ 60 + 1 : Nat) from by decide]
    rw [show roundF64 ((2 ^ 60 + 1 : Nat) : ℚ) = some ((2 ^ 60 : Nat) : ℚ) from by decide]
    rw [Option.some_bind, h2]
    rw [show roundF64 ((100 * 2 ^ 60 : Nat) : ℚ) = some ((100 * 2 ^ 60 : Nat) : ℚ) from by
      decide]
    rw [Option.some_bind, h4]
    rw [show roundF64 ((2 ^ 60 : Nat) : ℚ) = some ((2 ^ 60 : Nat) : ℚ) from by decide]
    decide
  · simp only [toEvictSpec, desiredFreeBytes]
    rw [show (((2 ^ 60 + 1) * 1 : Nat) : ℚ) * (100 : ℚ) / 100 = ((2 ^ 60 + 1 : Nat) : ℚ) from by
      push_cast; norm_num]
    rw [Int.floor_natCast]
    decide

/-- C2: validate_cache implements exactly the behaviour the claim describes:
source missing - false, deleting the cache copy unless check_only; cache
missing - false; assume_valid_if_present - true; otherwise true iff the
stored checksum xattr equals the recomputed checksum, deleting the cache on
mismatch only when check_only is false. -/
theorem validateCache_eq_spec (src : Option SrcFileState) (cache : Option CacheFileState)
    (assumeValidIfPresent checkOnly : Bool) :
    validateCache src cache assumeValidIfPresent checkOnly =
      validateCacheSpec src cache assumeValidIfPresent checkOnly := by
  cases src with
  | none => cases checkOnly <;> rfl
  | some s =>
    cases cache with
    | none => rfl
    | some c =>
      unfold validateCache validateCacheSpec isPristine
      cases assumeValidIfPresent with
      | true => simp
      | false =>
        by_cases hx : c.chksumXattr = some (srcChecksumOf s)
        · simp [hx]
        · simp [hx]

/-- C3: after CatFS::flush completes, the inode's cache_valid_if_present
flag is false, and its flush_failed flag is true exactly when the flush
failed. -/
theorem catfsFlush_inode_flags (f : InodeFlags) (h : Handle) (ok : Bool)
    (f2 : InodeFlags) (h2 : Handle)
    (hr : catfsFlush f h = some (ok, f2, h2)) :
    f2.cache_valid_if_present = false ∧ f2.flush_failed = !ok := by
  unfold catfsFlush at hr
  cases hf : h.flush with
  | ok v h1 =>
    rw [hf] at hr
    simp only [Option.some.injEq, Prod.mk.injEq] at hr
    obtain ⟨hok, hf2, -⟩ := hr
    subst hok
    subst hf2
    simp [inodeFlushed]
  | err e h1 =>
    rw [hf] at hr
    simp only [Option.some.injEq, Prod.mk.injEq] at hr
    obtain ⟨hok, hf2, -⟩ := hr
    subst hok
    subst hf2
    simp [inodeFlushFailed]
  | blocked =>
    rw [hf] at hr
    exact absurd hr (by simp)

/-- C3 witness: the theorem applied to a clean handle with both inode flags
initially set. -/
theorem catfsFlush_inode_flags_witness :
    catfsFlush ⟨true, true⟩ cleanHandle = some (true, ⟨false, false⟩, cleanHandle) ∧
    ((false, false) : Bool × Bool).1 = false ∧ ((false, false) : Bool × Bool).2 = !true :=
  ⟨by decide,
   (catfsFlush_inode_flags ⟨true, true⟩ cleanHandle true ⟨false, false⟩ cleanHandle
      (by decide)).1,
   (catfsFlush_inode_flags ⟨true, true⟩ cleanHandle true ⟨false, false⟩ cleanHandle
      (by decide)).2⟩

/-- Helper: the u64-to-i64 cast is the identity below 2^63. -/
theorem toI64_small (n : Nat) (h : n < 2 ^ 63) : toI64 n = n := by
  unfold toI64
  have h64 : n % 2 ^ 64 = n := Nat.mod_eq_of_lt (lt_trans h (by norm_num))
  rw [h64, if_pos h]

/-- Helper: i64 wrap-around is the identity inside the i64 range. -/
theorem wrapI64_small (n : Int) (h1 : -(2 ^ 63) ≤ n) (h2 : n < 2 ^ 63) : wrapI64 n = n := by
  unfold wrapI64
  rw [Int.emod_eq_of_lt (by omega) (by omega)]
  ring

/-- C8 (amended): to_evict(target, st) = max(0, desired_free_bytes -
current_free_bytes) with desired as claimed, provided the byte quantities
fit the conversions the code performs.  For a Bytes(b) target: current free
bytes and b below 2^63 (the i64 range).  For a Percent(p) target: current
free bytes and the desired floor(total * p / 100) below 2^63, total bytes
below 2^64, and each of the three binary64 values of
`total as f64 * p / 100.0` exactly representable (roundF64 is the identity
on it).  Outside these ranges the `as i64` reinterpretation or the f64
rounding break the formula, see the counterexample. -/
theorem toEvict_eq_spec :
    (∀ b st, st.f_bfree * st.f_frsize < 2 ^ 63 → b < 2 ^ 63 →
      toEvict (DiskSpace.Bytes b) st = toEvictSpec (DiskSpace.Bytes b) st) ∧
    (∀ p st, st.f_bfree * st.f_frsize < 2 ^ 63 →
      st.f_blocks * st.f_frsize < 2 ^ 64 →
      desiredFreeBytes (DiskSpace.Percent p) st < 2 ^ 63 →
      roundF64 ((st.f_blocks * st.f_frsize : Nat) : ℚ) =
        some ((st.f_blocks * st.f_frsize : Nat) : ℚ) →
      roundF64 (((st.f_blocks * st.f_frsize : Nat) : ℚ) * p) =
        some (((st.f_blocks * st.f_frsize : Nat) : ℚ) * p) →
      roundF64 (((st.f_blocks * st.f_frsize : Nat) : ℚ) * p / 100) =
        some (((st.f_blocks * st.f_frsize : Nat) : ℚ) * p / 100) →
      toEvict (DiskSpace.Percent p) st = toEvictSpec (DiskSpace.Percent p) st) := by
  constructor
  · intro b st hcur hb
    simp only [toEvict, toEvictSpec, desiredFreeBytes]
    have hcmod : st.f_bfree * st.f_frsize % 2 ^ 64 = st.f_bfree * st.f_frsize :=
      Nat.mod_eq_of_lt (lt_trans hcur (by norm_num))
    rw [hcmod, toI64_small _ hcur, toI64_small b hb]
    rw [wrapI64_small _ (by omega) (by omega)]
    split <;> omega
  · intro p st hcur htot hdes hr1 hr2 hr3
    simp only [desiredFreeBytes] at hdes
    simp only [toEvict, toEvictSpec, desiredFreeBytes]
    have hcmod : st.f_bfree * st.f_frsize % 2 ^ 64 = st.f_bfree * st.f_frsize :=
      Nat.mod_eq_of_lt (lt_trans hcur (by norm_num))
    rw [hcmod, toI64_small _ hcur]
    rw [Nat.mod_eq_of_lt htot, hr1]
    simp only [Option.some_bind]
    rw [hr2]
    simp only [Option.some_bind]
    rw [hr3]
    dsimp only
    unfold satCastU64
    by_cases hneg : ((st.f_blocks * st.f_frsize : Nat) : ℚ) * p / 100 < 0
    · have hfl : ⌊((st.f_blocks * st.f_frsize : Nat) : ℚ) * p / 100⌋ < 0 := by
        have hle := Int.floor_le (((st.f_blocks * st.f_frsize : Nat) : ℚ) * p / 100)
        have : ((⌊((st.f_blocks * st.f_frsize : Nat) : ℚ) * p / 100⌋ : ℚ)) < 0 :=
          lt_of_le_of_lt hle hneg
        exact_mod_cast this
      rw [if_pos hneg]
      rw [toI64_small 0 (by norm_num)]
      rw [wrapI64_small _ (by omega) (by omega)]
      split <;> omega
    · have hq : 0 ≤ ((st.f_blocks * st.f_frsize : Nat) : ℚ) * p / 100 := le_of_not_lt hneg
      have hfl0 : 0 ≤ ⌊((st.f_blocks * st.f_frsize : Nat) : ℚ) * p / 100⌋ :=
        Int.floor_nonneg.mpr hq
      rw [if_neg hneg]
      rw [min_eq_left (by omega)]
      rw [toI64_small _ (by omega)]
      rw [Int.toNat_of_nonneg hfl0]
      rw [wrapI64_small _ (by omega) (by omega)]
      split <;> omega

set_option maxRecDepth 4000 in
/-- C8 witness: both parts of the amended theorem applied to a small
snapshot (100 blocks of 4096 bytes, one free block): a Bytes(4096 + 2048)
target as in the repository's evict_one test, and a Percent(25) target
whose binary64 chain 409600 * 25 / 100 is exact at every step. -/
theorem toEvict_eq_spec_witness :
    ((1 * 4096 : Nat) < 2 ^ 63 ∧ (6144 : Nat) < 2 ^ 63 ∧
     toEvict (DiskSpace.Bytes 6144) ⟨100, 1, 4096⟩ =
       toEvictSpec (DiskSpace.Bytes 6144) ⟨100, 1, 4096⟩) ∧
    ((100 * 4096 : Nat) < 2 ^ 64 ∧
     desiredFreeBytes (DiskSpace.Percent 25) ⟨100, 1, 4096⟩ < 2 ^ 63 ∧
     roundF64 ((409600 : Nat) : ℚ) = some ((409600 : Nat) : ℚ) ∧
     roundF64 (((409600 : Nat) : ℚ) * 25) = some (((409600 : Nat) : ℚ) * 25) ∧
     roundF64 (((409600 : Nat) : ℚ) * 25 / 100) = some (((409600 : Nat) : ℚ) * 25 / 100) ∧
     toEvict (DiskSpace.Percent 25) ⟨100, 1, 4096⟩ =
       toEvictSpec (DiskSpace.Percent 25) ⟨100, 1, 4096⟩) := by
  have hdes : desiredFreeBytes (DiskSpace.Percent 25) ⟨100, 1, 4096⟩ < 2 ^ 63 := by
    simp only [desiredFreeBytes]
    rw [show (((⟨100, 1, 4096⟩ : Statvfs).f_blocks * (⟨100, 1, 4096⟩ : Statvfs).f_frsize
          : Nat) : ℚ) * 25 / 100 = ((102400 : Nat) : ℚ) from by push_cast; norm_num]
    rw [Int.floor_natCast]
    decide
  have hr1 : roundF64 ((409600 : Nat) : ℚ) = some ((409600 : Nat) : ℚ) := by decide
  have hr2 : roundF64 (((409600 : Nat) : ℚ) * 25) = some (((409600 : Nat) : ℚ) * 25) := by
    rw [show ((409600 : Nat) : ℚ) * 25 = ((10240000 : Nat) : ℚ) from by push_cast; ring]
    decide
  have hr3 : roundF64 (((409600 : Nat) : ℚ) * 25 / 100) =
      some (((409600 : Nat) : ℚ) * 25 / 100) := by
    rw [show ((409600 : Nat) : ℚ) * 25 / 100 = ((102400 : Nat) : ℚ) from by
      push_cast; norm_num]
    decide
  exact ⟨⟨by decide, by decide,
      toEvict_eq_spec.1 6144 ⟨100, 1, 4096⟩ (by decide) (by decide)⟩,
    by decide, hdes, hr1, hr2, hr3,
    toEvict_eq_spec.2 25 ⟨100, 1, 4096⟩ (by decide) (by decide) hdes hr1 hr2 hr3⟩

/-- Helper: the write loop returns immediately once the byte count reaches
the buffer length, marking the handle dirty if anything was written. -/
theorem writeLoop_done (off : Nat) (b : List Nat) (h : Handle) (bw fuel : Nat)
    (hbw : ¬ bw < b.length) :
    writeLoop off b h bw fuel = HRes.ok bw (if bw ≠ 0 then { h with dirty := true } else h) := by
  cases fuel with
  | zero => rfl
  | succ n =>
    rw [writeLoop]
    rw [if_neg hbw]

/-- Helper: a write-loop run that returns success has written the buffer to
the cache at the requested offset and left the page-in state alone. -/
theorem writeLoop_ok_cache (off : Nat) (b : List Nat) (h1 h2 : Handle) (n : Nat)
    (hw : writeLoop off b h1 0 (b.length + 1) = HRes.ok n h2) :
    (h2.cache.data.drop off).take b.length = b ∧
    h2.has_page_in_thread = h1.has_page_in_thread ∧
    h2.pageIn = h1.pageIn := by
  cases b with
  | nil =>
    rw [writeLoop_done off [] h1 0 ([].length + 1) (by simp)] at hw
    simp only [ne_eq, not_true_eq_false, if_false, HRes.ok.injEq] at hw
    obtain ⟨-, hh⟩ := hw
    subst hh
    simp
  | cons c cs =>
    rw [writeLoop] at hw
    rw [if_pos (by simp : (0 : Nat) < (c :: cs).length)] at hw
    by_cases hwtf : h1.write_through_failed = true
    · rw [if_pos hwtf] at hw
      dsimp only at hw
      rw [if_pos hwtf] at hw
      cases hcw : h1.cache.writeErr with
      | some e =>
        rw [hcw] at hw
        simp at hw
      | none =>
        rw [hcw] at hw
        dsimp only at hw
        simp only [Nat.zero_add, Nat.sub_zero] at hw
        rw [writeLoop_done off (c :: cs) _ (c :: cs).length (c :: cs).length (Nat.lt_irrefl _)] at hw
        simp only [ne_eq, List.length_cons, Nat.succ_ne_zero, not_false_eq_true, if_true,
          HRes.ok.injEq] at hw
        obtain ⟨-, hh⟩ := hw
        subst hh
        refine ⟨?_, rfl, rfl⟩
        simp only [Nat.add_zero, List.drop_zero, List.length_cons]
        have := writeAtData_readback h1.cache.data off (c :: cs)
        simpa using this
    · rw [if_neg hwtf] at hw
      cases hsw : h1.src.writeErr with
      | some e =>
        rw [hsw] at hw
        dsimp only at hw
        split at hw <;> simp at hw
      | none =>
        rw [hsw] at hw
        dsimp only at hw
        rw [if_neg hwtf] at hw
        cases hcw : h1.cache.writeErr with
        | some e =>
          rw [hcw] at hw
          simp at hw
        | none =>
          rw [hcw] at hw
          dsimp only at hw
          simp only [Nat.zero_add, Nat.sub_zero] at hw
          rw [writeLoop_done off (c :: cs) _ (c :: cs).length (c :: cs).length (Nat.lt_irrefl _)] at hw
          simp only [ne_eq, List.length_cons, Nat.succ_ne_zero, not_false_eq_true, if_true,
            HRes.ok.injEq] at hw
          obtain ⟨-, hh⟩ := hw
          subst hh
          refine ⟨?_, rfl, rfl⟩
          simp only [Nat.add_zero, List.drop_zero, List.length_cons]
          have := writeAtData_readback h1.cache.data off (c :: cs)
          simpa using this

/-- Helper: the read loop returns immediately once the buffer is full. -/
theorem readLoop_full (h : Handle) (off nwant fuel : Nat) (acc : List Nat)
    (hacc : ¬ acc.length < nwant) :
    readLoop h off nwant fuel acc = HRes.ok acc h := by
  cases fuel with
  | zero => rfl
  | succ m =>
    rw [readLoop]
    rw [if_neg hacc]

/-- Helper: the read loop delivers exactly the bytes the cache holds in
[off, off + n), short only at end of file. -/
theorem readLoop_result (h : Handle) (off n : Nat) :
    readLoop h off n (n + 1) [] = HRes.ok ((h.cache.data.drop off).take n) h := by
  cases n with
  | zero =>
    rw [readLoop_full h off 0 1 [] (by simp)]
    simp
  | succ m =>
    rw [readLoop]
    rw [if_pos (by simp : ([] : List Nat).length < m + 1)]
    simp only [List.length_nil, Nat.add_zero, Nat.sub_zero, List.nil_append]
    by_cases hz : (readAtData h.cache.data off (m + 1)).length = 0
    · rw [if_pos hz]
      have h0 : (h.cache.data.drop off).take (m + 1) = [] := List.eq_nil_of_length_eq_zero hz
      rw [h0]
    · rw [if_neg hz]
      by_cases hfull : (readAtData h.cache.data off (m + 1)).length < m + 1
      · rw [readLoop]
        rw [if_pos hfull]
        have h2z : (readAtData h.cache.data (off + (readAtData h.cache.data off (m + 1)).length)
            (m + 1 - (readAtData h.cache.data off (m + 1)).length)).length = 0 := by
          simp only [readAtData, List.length_take, List.length_drop] at hfull ⊢
          omega
        rw [if_pos h2z]
        rfl
      · rw [readLoop_full h off (m + 1) (m + 1) _ hfull]
        rfl

/-- Helper: wait_for_offset succeeds without touching the handle when the
page-in has already progressed past the target. -/
theorem waitForOffset_pass (h : Handle) (target : Nat)
    (heof : h.pageIn.eof = false) (hoff : target ≤ h.pageIn.offset) :
    waitForOffset h target false = HRes.ok () h := by
  unfold waitForOffset
  simp [heof, hoff]

/-- C1: after a write that returns success with the full byte count, a read
on the same handle at the same offset and length returns exactly the
written bytes (the written region is in the cache file when write returns). -/
theorem write_read_roundtrip (h h2 : Handle) (off : Nat) (b : List Nat)
    (hw : h.write off b = HRes.ok b.length h2) :
    (h2.read off b.length).value = some b := by
  unfold Handle.write at hw
  dsimp only at hw
  generalize hg : (if !h.dirty then setPristine h false else h) = h0 at hw
  by_cases hpt : h0.has_page_in_thread = true
  · rw [if_pos hpt] at hw
    unfold waitForOffset at hw
    simp only [reduceIte] at hw
    by_cases heof : h0.pageIn.eof = true
    · rw [if_pos heof] at hw
      dsimp only at hw
      obtain ⟨hrd, hthread, hpg⟩ := writeLoop_ok_cache off b _ h2 b.length hw
      have hth2 : ¬ h2.has_page_in_thread = true := by rw [hthread]; simp
      unfold Handle.read
      rw [if_neg hth2]
      dsimp only
      rw [readLoop_result]
      simp [HRes.value, hrd]
    · rw [if_neg heof] at hw
      by_cases hoff : off + b.length ≤ h0.pageIn.offset
      · rw [if_pos hoff] at hw
        dsimp only at hw
        obtain ⟨hrd, hthread, hpg⟩ := writeLoop_ok_cache off b _ h2 b.length hw
        have hth2 : h2.has_page_in_thread = true := by rw [hthread]; exact hpt
        have heof2 : h2.pageIn.eof = false := by rw [hpg]; simpa using heof
        have hoff2 : off + b.length ≤ h2.pageIn.offset := by rw [hpg]; simpa using hoff
        unfold Handle.read
        rw [if_pos hth2]
        rw [waitForOffset_pass h2 (off + b.length) heof2 hoff2]
        dsimp only
        rw [readLoop_result]
        simp [HRes.value, hrd]
      · rw [if_neg hoff] at hw
        cases herr : h0.pageIn.err with
        | some e =>
          rw [herr] at hw
          simp at hw
        | none =>
          rw [herr] at hw
          simp at hw
  · rw [if_neg hpt] at hw
    dsimp only at hw
    obtain ⟨hrd, hthread, hpg⟩ := writeLoop_ok_cache off b h0 h2 b.length hw
    have hth2 : ¬ h2.has_page_in_thread = true := by rw [hthread]; exact hpt
    unfold Handle.read
    rw [if_neg hth2]
    dsimp only
    rw [readLoop_result]
    simp [HRes.value, hrd]

/-- C1 witness: writing [7, 8] at offset 2 of an empty file then reading two
bytes at offset 2 returns [7, 8]. -/
theorem write_read_roundtrip_witness :
    cleanHandle.write 2 [7, 8] = HRes.ok 2
      ⟨⟨[0, 0, 7, 8], none, none⟩, none, 0, ⟨[0, 0, 7, 8], none, none⟩, none, true, false, false,
        ⟨0, false, false, none⟩⟩ ∧
    ((⟨⟨[0, 0, 7, 8], none, none⟩, none, 0, ⟨[0, 0, 7, 8], none, none⟩, none, true, false, false,
        ⟨0, false, false, none⟩⟩ : Handle).read 2 2).value = some [7, 8] :=
  ⟨by decide, write_read_roundtrip cleanHandle _ 2 [7, 8] (by decide)⟩

/-- Helper: a pwrite at offset zero that covers the whole file replaces its
contents with the buffer. -/
theorem writeAtData_zero_cover (d b : List Nat) (hle : d.length ≤ b.length) :
    writeAtData d 0 b = b := by
  unfold writeAtData
  simp [List.drop_eq_nil_of_le hle]

/-- Helper: once write_through_failed is set, the write loop never touches
the source file. -/
theorem writeLoop_wtf_src (off : Nat) (b : List Nat) :
    ∀ fuel h bw hh, (writeLoop off b h bw fuel).handle = some hh →
      h.write_through_failed = true → hh.src = h.src := by
  intro fuel
  induction fuel with
  | zero =>
    intro h bw hh hres hwtf
    rw [writeLoop] at hres
    simp only [HRes.handle, Option.some.injEq] at hres
    subst hres
    split <;> rfl
  | succ n ih =>
    intro h bw hh hres hwtf
    rw [writeLoop] at hres
    by_cases hbw : bw < b.length
    · rw [if_pos hbw] at hres
      rw [if_pos hwtf] at hres
      dsimp only at hres
      rw [if_pos hwtf] at hres
      cases hcw : h.cache.writeErr with
      | some e =>
        rw [hcw] at hres
        dsimp only at hres
        split at hres <;>
          · simp only [HRes.handle, Option.some.injEq] at hres
            subst hres
            rfl
      | none =>
        rw [hcw] at hres
        dsimp only at hres
        exact ih { h with cache := { data := writeAtData h.cache.data (off + bw) (b.drop bw), writeErr := none, flushErr := h.cache.flushErr } } (bw + (b.length - bw)) hh hres hwtf
    · rw [if_neg hbw] at hres
      simp only [HRes.handle, Option.some.injEq] at hres
      subst hres
      split <;> rfl

/-- Helper: Handle::write on a write-through-failed handle leaves the source
file untouched, whatever the outcome. -/
theorem write_skips_src (h : Handle) (off : Nat) (b : List Nat) (hh : Handle)
    (hres : (h.write off b).handle = some hh) (hwtf : h.write_through_failed = true) :
    hh.src = h.src := by
  unfold Handle.write at hres
  dsimp only at hres
  generalize hg : (if !h.dirty then setPristine h false else h) = h0 at hres
  have h0src : h0.src = h.src := by rw [← hg]; split <;> rfl
  have h0wtf : h0.write_through_failed = true := by rw [← hg]; split <;> exact hwtf
  by_cases hpt : h0.has_page_in_thread = true
  · rw [if_pos hpt] at hres
    unfold waitForOffset at hres
    simp only [reduceIte] at hres
    by_cases heof : h0.pageIn.eof = true
    · rw [if_pos heof] at hres
      dsimp only at hres
      have hs := writeLoop_wtf_src off b (b.length + 1) _ 0 hh hres h0wtf
      rw [hs]
      exact h0src
    · rw [if_neg heof] at hres
      by_cases hoff : off + b.length ≤ h0.pageIn.offset
      · rw [if_pos hoff] at hres
        dsimp only at hres
        have hs := writeLoop_wtf_src off b (b.length + 1) _ 0 hh hres h0wtf
        rw [hs]
        exact h0src
      · rw [if_neg hoff] at hres
        cases herr : h0.pageIn.err with
        | some e =>
          rw [herr] at hres
          simp only [HRes.handle, Option.some.injEq] at hres
          subst hres
          exact h0src
        | none =>
          rw [herr] at hres
          simp [HRes.handle] at hres
  · rw [if_neg hpt] at hres
    dsimp only at hres
    have hs := writeLoop_wtf_src off b (b.length + 1) h0 0 hh hres h0wtf
    rw [hs]
    exact h0src

/-- Helper: a source pwrite rejected with ENOTSUP makes Handle::write set
write_through_failed and return ENOTSUP. -/
theorem write_enotsup (h : Handle) (off : Nat) (b : List Nat)
    (hwtf : h.write_through_failed = false) (hsw : h.src.writeErr = some ENOTSUP)
    (hpt : h.has_page_in_thread = false) (hb : b ≠ []) :
    (h.write off b).errno = some ENOTSUP ∧
    ((h.write off b).handle).map Handle.write_through_failed = some true := by
  unfold Handle.write
  dsimp only
  generalize hg : (if !h.dirty then setPristine h false else h) = h0
  have h0sw : h0.src.writeErr = some ENOTSUP := by rw [← hg]; split <;> exact hsw
  have h0wtf : ¬ h0.write_through_failed = true := by
    rw [← hg]; split <;> simp [setPristine, hwtf]
  have h0pt : ¬ h0.has_page_in_thread = true := by
    rw [← hg]; split <;> simp [setPristine, hpt]
  rw [if_neg h0pt]
  dsimp only
  cases b with
  | nil => exact absurd rfl hb
  | cons c cs =>
    rw [writeLoop]
    rw [if_pos (by simp : (0 : Nat) < (c :: cs).length)]
    rw [if_neg h0wtf]
    rw [h0sw]
    dsimp only
    rw [if_pos (rfl : ENOTSUP = ENOTSUP)]
    simp [HRes.errno, HRes.handle]

/-- Helper: with write_through_failed set, a write on a handle whose cache
accepts writes and has no running page-in succeeds with the full count. -/
theorem write_cache_only_ok (h : Handle) (off : Nat) (b : List Nat)
    (hwtf : h.write_through_failed = true) (hpt : h.has_page_in_thread = false)
    (hcw : h.cache.writeErr = none) :
    (h.write off b).value = some b.length := by
  unfold Handle.write
  dsimp only
  generalize hg : (if !h.dirty then setPristine h false else h) = h0
  have h0wtf : h0.write_through_failed = true := by rw [← hg]; split <;> exact hwtf
  have h0cw : h0.cache.writeErr = none := by rw [← hg]; split <;> exact hcw
  have h0pt : ¬ h0.has_page_in_thread = true := by
    rw [← hg]; split <;> simp [setPristine, hpt]
  rw [if_neg h0pt]
  dsimp only
  cases b with
  | nil =>
    rw [writeLoop_done off [] h0 0 ([].length + 1) (by simp)]
    simp [HRes.value]
  | cons c cs =>
    rw [writeLoop]
    rw [if_pos (by simp : (0 : Nat) < (c :: cs).length)]
    rw [if_pos h0wtf]
    dsimp only
    rw [if_pos h0wtf]
    rw [h0cw]
    dsimp only
    simp only [Nat.zero_add, Nat.sub_zero]
    rw [writeLoop_done off (c :: cs) _ (c :: cs).length (c :: cs).length (Nat.lt_irrefl _)]
    simp [HRes.value]

/-- Helper: flushing a dirty write-through-failed handle copies the cache
contents onto the source; the copy's eof notification re-marks the cache
pristine exactly when the page-in dirty flag is unset. -/
theorem flush_wtf_copies (h : Handle)
    (hd : h.dirty = true) (hwtf : h.write_through_failed = true)
    (hpt : h.has_page_in_thread = false) (herr : h.pageIn.err = none)
    (hsw : h.src.writeErr = none) (hsf : h.src.flushErr = none) (hcf : h.cache.flushErr = none) :
    (h.flush).value = some true ∧
    ((h.flush).handle).map (fun hh => hh.src.data) = some h.cache.data ∧
    ((h.flush).handle).map Handle.cacheChksum =
      some (if h.pageIn.dirty = true then h.cacheChksum
            else some (srcStrToChecksum h.srcEtag h.srcMtime h.cache.data.length)) := by
  unfold Handle.flush
  rw [if_pos hd, if_pos hwtf]
  have hptn : ¬ h.has_page_in_thread = true := by simp [hpt]
  rw [if_neg hptn]
  dsimp only
  unfold Handle.copyToSrc
  dsimp only
  by_cases htr : h.cache.data.length < h.src.data.length
  · rw [if_pos htr]
    by_cases hn : h.cache.data.length = 0
    · have hcd : h.cache.data = [] := List.eq_nil_of_length_eq_zero hn
      rw [if_pos hn]
      by_cases hpd : h.pageIn.dirty = true <;>
        simp [notifyOffset, setPristine, Handle.srcChecksum, herr, hsf, hcf, hcd, hpd,
          HRes.value, HRes.handle]
    · rw [if_neg hn]
      have hcover : writeAtData (h.src.data.take h.cache.data.length) 0 h.cache.data
          = h.cache.data :=
        writeAtData_zero_cover _ _ (by simp)
      dsimp only
      rw [hsw]
      dsimp only
      by_cases hpd : h.pageIn.dirty = true <;>
        simp [notifyOffset, setPristine, Handle.srcChecksum, herr, hsf, hcf, hcover, hpd,
          HRes.value, HRes.handle]
  · rw [if_neg htr]
    by_cases hn : h.cache.data.length = 0
    · have hcd : h.cache.data = [] := List.eq_nil_of_length_eq_zero hn
      have hsd : h.src.data = [] := by
        have : h.src.data.length = 0 := by omega
        exact List.eq_nil_of_length_eq_zero this
      rw [if_pos hn]
      by_cases hpd : h.pageIn.dirty = true <;>
        simp [notifyOffset, setPristine, Handle.srcChecksum, herr, hsf, hcf, hcd, hsd, hpd,
          HRes.value, HRes.handle]
    · rw [if_neg hn]
      have hcover : writeAtData h.src.data 0 h.cache.data = h.cache.data :=
        writeAtData_zero_cover _ _ (by omega)
      rw [hsw]
      dsimp only
      by_cases hpd : h.pageIn.dirty = true <;>
        simp [notifyOffset, setPristine, Handle.srcChecksum, herr, hsf, hcf, hcover, hpd,
          HRes.value, HRes.handle]

/-- C4 (amended): a source write failing with ENOTSUP sets the handle's
write_through_failed flag and returns that error; every subsequent write on
the handle leaves the source untouched, and succeeds with the full count
when the cache accepts the write and no page-in blocks; a later flush of the
dirty handle copies the cache file's contents to the source rather than
taking the mark-pristine branch - but on completion of that copy, when no
foreground write has marked the page-in status dirty, the cache IS then
marked pristine (the claim's "instead of marking the cache pristine" fails
there, see the counterexample). -/
theorem write_through_fallback :
    (∀ h off b, Handle.write_through_failed h = false → (Handle.src h).writeErr = some ENOTSUP →
      Handle.has_page_in_thread h = false → b ≠ [] →
      (Handle.write h off b).errno = some ENOTSUP ∧
      ((Handle.write h off b).handle).map Handle.write_through_failed = some true) ∧
    (∀ h off b hh, (Handle.write h off b).handle = some hh →
      Handle.write_through_failed h = true → Handle.src hh = Handle.src h) ∧
    (∀ h off b, Handle.write_through_failed h = true → Handle.has_page_in_thread h = false →
      (Handle.cache h).writeErr = none → (Handle.write h off b).value = some b.length) ∧
    (∀ h, Handle.dirty h = true → Handle.write_through_failed h = true →
      Handle.has_page_in_thread h = false → (Handle.pageIn h).err = none →
      (Handle.src h).writeErr = none → (Handle.src h).flushErr = none →
      (Handle.cache h).flushErr = none →
      (Handle.flush h).value = some true ∧
      ((Handle.flush h).handle).map (fun hh => (Handle.src hh).data) = some (Handle.cache h).data ∧
      ((Handle.flush h).handle).map Handle.cacheChksum =
        some (if (Handle.pageIn h).dirty = true then Handle.cacheChksum h
              else some (srcStrToChecksum (Handle.srcEtag h) (Handle.srcMtime h)
                (Handle.cache h).data.length))) :=
  ⟨write_enotsup, fun h off b hh hres hwtf => write_skips_src h off b hh hres hwtf,
   write_cache_only_ok, flush_wtf_copies⟩

/-- C4 witness: the four parts at concrete handles - the first write that
hits ENOTSUP, a subsequent cache-only write, and the flush that copies the
two cached bytes back to the source. -/
theorem write_through_fallback_witness :
    (enotsupHandle.write 0 [1]).errno = some ENOTSUP ∧
    ((enotsupHandle.write 0 [1]).handle).map Handle.write_through_failed = some true ∧
    (⟨⟨[9], some ENOTSUP, none⟩, none, 0, ⟨[1], none, none⟩, none, true, true, false,
      ⟨0, false, false, none⟩⟩ : Handle).src = skipSrcHandle.src ∧
    (skipSrcHandle.write 0 [1]).value = some 1 ∧
    (wtfDirtyHandle.flush).value = some true ∧
    ((wtfDirtyHandle.flush).handle).map (fun hh => hh.src.data) = some wtfDirtyHandle.cache.data := by
  have hth := write_through_fallback
  exact ⟨(hth.1 enotsupHandle 0 [1] rfl rfl rfl (by decide)).1,
         (hth.1 enotsupHandle 0 [1] rfl rfl rfl (by decide)).2,
         hth.2.1 skipSrcHandle 0 [1] _ (by decide) rfl,
         hth.2.2.1 skipSrcHandle 0 [1] rfl rfl rfl,
         (hth.2.2.2 wtfDirtyHandle rfl rfl rfl rfl rfl rfl rfl).1,
         (hth.2.2.2 wtfDirtyHandle rfl rfl rfl rfl rfl rfl rfl).2.1⟩

/-- C4 counterexample: the flush of the dirty write-through-failed handle
(no page-in ever ran, so the page-in dirty flag is false) succeeds and DOES
mark the cache pristine - its xattr goes from absent to present - which the
claim as stated ("instead of marking the cache pristine") rules out. -/
theorem flush_marks_pristine_in_copy_path :
    wtfDirtyHandle.cacheChksum.isSome = false ∧
    (wtfDirtyHandle.flush).value = some true ∧
    ((wtfDirtyHandle.flush).handle).map (fun hh => hh.cacheChksum.isSome) = some true := by
  decide
